import Mathlib

/-!
# waysys/spreadsheet: typed accessors over spreadsheet rows

A shallow embedding of the Go package `spreadsheet` (reader.go, writer.go,
spreadsheetsupport.go) and proofs about its accessor layer.

Modelling conventions.

* A Go `string` is a Lean `String`; the texts handled here come out of an XML
  workbook and are valid UTF-8, so a rune is a `Char`.
* A Go `int` is an `Int`. No arithmetic is done on rows or format indices
  apart from comparisons, so no wrap-around can occur.
* A Go `error` is an `Option GoError` (`none` is `nil`). `GoError.New text` is
  a value built by `errors.New(text)` inside this package; `GoError.collab`
  is an error value handed back by one of the libraries the package calls.
* A run-time panic (index out of range, nil dereference) is `Result.fault`.
-/

namespace spreadsheet

/-! ## Go run-time model -/

/-- An error value, with its origin. -/
inductive GoError where
  | New (text : String)
  | collab (text : String)
deriving DecidableEq, Repr

/-- The outcome of running a Go function: it returns a value, or it panics. -/
inductive Result (α : Type) where
  | ret (a : α)
  | fault (msg : String)
deriving DecidableEq, Repr

/-- Slice indexing `xs[i]`: panics when `i` is outside `0 <= i < len(xs)`. -/
def index {α : Type} (xs : List α) (i : Int) : Result α :=
  if i < 0 then Result.fault "index out of range"
  else
    match xs.get? i.toNat with
    | some x => Result.ret x
    | none => Result.fault "index out of range"

/-- The decimal digit `d` (0..9) as a character. -/
def digitChar (d : Nat) : Char := Char.ofNat (48 + d)

/-- Decimal digits of `n`, most significant first. `fuel` bounds the number of
digits produced; `n + 1` is always enough. -/
def formatDecimal : Nat → Nat → List Char
  | 0, _ => []
  | fuel + 1, n =>
    if n < 10 then [digitChar n]
    else formatDecimal fuel (n / 10) ++ [digitChar (n % 10)]

/-- Go `strconv.Itoa`: base-10 rendering, with a leading `-` for negatives. -/
def Itoa (i : Int) : String :=
  match i with
  | Int.ofNat n => String.mk (formatDecimal (n + 1) n)
  | Int.negSucc n => String.mk ('-' :: formatDecimal (n + 2) (n + 1))

/-- Go `unicode.IsSpace`: the Latin-1 spaces and the code points with the
Unicode White_Space property. -/
def isSpace (c : Char) : Bool :=
  let n := c.toNat
  decide (n = 9 ∨ n = 10 ∨ n = 11 ∨ n = 12 ∨ n = 13 ∨ n = 32 ∨ n = 0x85 ∨ n = 0xA0 ∨
    n = 0x1680 ∨ (0x2000 ≤ n ∧ n ≤ 0x200A) ∨ n = 0x2028 ∨ n = 0x2029 ∨ n = 0x202F ∨
    n = 0x205F ∨ n = 0x3000)

/-- Go `strings.TrimSpace`: drops leading and trailing white space. -/
def TrimSpace (s : String) : String :=
  String.mk ((s.data.dropWhile isSpace).reverse.dropWhile isSpace).reverse

/-- Go `strings.ReplaceAll(s, old, new)` for a one-character `old`. -/
def ReplaceAll (s : String) (old : Char) (new : String) : String :=
  String.mk (s.data.flatMap fun c => if c = old then new.data else [c])

/-! ## reader.go -/

/-- The struct `Spreadsheet`: the header and the rows (row 0 included). -/
structure Spreadsheet where
  headings : List String
  rows : List (List String)
deriving DecidableEq, Repr

/-- The read side of the excelize library, as `readData` uses it. -/
structure ExcelizeReader where
  OpenFile : String → Option Nat × Option String
  GetRows : Option Nat → String → List (List String) × Option String
  Close : Option Nat → Option String

/-- Function `readData`: open the workbook, read the rows of `tab`. The deferred
`file.Close()` only prints its error, so it does not show in the result. -/
def readData (X : ExcelizeReader) (excelFillName tab : String) :
    List (List String) × Option GoError :=
  match X.OpenFile excelFillName with
  | (_, some e) => ([], some (GoError.collab e))
  | (file, none) =>
    match X.GetRows file tab with
    | (rows, some e) => (rows, some (GoError.collab e))
    | (rows, none) => (rows, none)

/-- Function `ProcessData`. -/
def ProcessData (X : ExcelizeReader) (fileName tab : String) :
    Result (Spreadsheet × Option GoError) :=
  match readData X fileName tab with
  | (_, some e) => Result.ret (⟨[], []⟩, some e)
  | (rows, none) =>
    let err : Option GoError :=
      if rows.length = 0 then some (GoError.New "spreadsheet is empty") else none
    match index rows 0 with
    | Result.fault m => Result.fault m
    | Result.ret row0 => Result.ret (⟨row0, rows⟩, err)

namespace Spreadsheet

/-- Method `Size`. -/
def Size (spreadsheet : Spreadsheet) : Int := spreadsheet.rows.length

/-- The `for` loop of `column`: `rest` is `headings[column:]`. -/
def columnLoop (heading : String) : List String → Nat → Nat × Option GoError
  | [], column => (column, some (GoError.New ("heading not found in headings: " ++ heading)))
  | h :: rest, column =>
    if h = heading then (column, none) else columnLoop heading rest (column + 1)

/-- Method `column`. -/
def column (spreadsheet : Spreadsheet) (heading : String) : Nat × Option GoError :=
  if heading = "" then (0, some (GoError.New "heading must not be empty"))
  else columnLoop heading spreadsheet.headings 0

/-- Method `Cell`. -/
def Cell (spreadsheet : Spreadsheet) (row : Int) (heading : String) :
    Result (String × Option GoError) :=
  match spreadsheet.column heading with
  | (_, some err) => Result.ret ("", some err)
  | (column, none) =>
    if row < 1 ∨ row ≥ spreadsheet.Size then
      Result.ret ("", some (GoError.New ("invalid row for spreadsheet: " ++ Itoa row)))
    else
      match index spreadsheet.rows row with
      | Result.fault m => Result.fault m
      | Result.ret r =>
        if (column : Int) ≥ r.length then Result.ret ("", none)
        else
          match index r column with
          | Result.fault m => Result.fault m
          | Result.ret cell => Result.ret (TrimSpace cell, none)

end Spreadsheet

/-- The decimal library (shopspring/decimal) as the package uses it. -/
structure DecimalLib (δ : Type) where
  Zero : δ
  NewFromString : String → δ × Option String
  String : δ → String

/-- Method `CellDecimal`. Besides the Go result the model reports the texts
that were handed to `NewFromString`, in order. -/
def Spreadsheet.CellDecimal {δ : Type} (D : DecimalLib δ) (spreadsheet : Spreadsheet)
    (row : Int) (heading : String) : Result ((δ × Option GoError) × List String) :=
  match spreadsheet.Cell row heading with
  | Result.fault m => Result.fault m
  | Result.ret (value, err) =>
    let value := ReplaceAll value ',' ""
    match err with
    | none =>
      if value = "" then Result.ret ((D.Zero, none), [])
      else
        match D.NewFromString value with
        | (amount, e) => Result.ret ((amount, e.map GoError.collab), [value])
    | some e => Result.ret ((D.Zero, some e), [])

/-- The date library (waysys/waydate) as the package uses it. -/
structure DateLib (τ : Type) where
  MinDate : τ
  NewFromString : String → τ × Option String
  String : τ → String

/-- Method `CellDate`. -/
def Spreadsheet.CellDate {τ : Type} (T : DateLib τ) (spreadsheet : Spreadsheet)
    (row : Int) (heading : String) : Result (τ × Option GoError) :=
  match spreadsheet.Cell row heading with
  | Result.fault m => Result.fault m
  | Result.ret (value, none) =>
    match T.NewFromString value with
    | (date, e) => Result.ret (date, e.map GoError.collab)
  | Result.ret (_, some e) => Result.ret (T.MinDate, some e)

/-! ## spreadsheetsupport.go -/

/-- Function `CellName`. -/
def CellName (column : String) (row : Int) : String := column ++ Itoa row

/-! ## writer.go

The file handle of the excelize library is mutable and lives outside the
package. Its state is modelled by the list of the calls made on it so far,
oldest first; what a call answers is a function of that history. -/

/-- A `float64`, as its IEEE-754 bit pattern: the package only passes it on. -/
abbrev Float64 := Nat

/-- A `*excelize.File`: `none` is the nil pointer, `some k` the file object `k`. -/
abbrev FilePtr := Option Nat

/-- The struct `SpreadsheetFile`. -/
structure SpreadsheetFile where
  filename : String
  sheetname : String
  filePtr : FilePtr
deriving DecidableEq, Repr

/-- The type `FormatIndex` and its constants. -/
abbrev FormatIndex := Int

def FormatPerCent : FormatIndex := 9

def FormatDate : FormatIndex := 15

def FormatMoney : FormatIndex := 2

def FormatInt : FormatIndex := 1

/-- A call of a method of an excelize file handle: receiver and arguments. -/
inductive Call where
  | SetCellValue (file : FilePtr) (sheet cell value : String)
  | SetCellFloat (file : FilePtr) (sheet cell : String) (value : Float64)
      (precision bitSize : Int)
  | SetCellInt (file : FilePtr) (sheet cell : String) (value : Int)
  | NewStyle (file : FilePtr) (numFmt : Int)
  | SetCellStyle (file : FilePtr) (sheet hCell vCell : String) (styleID : Int)
  | SaveAs (file : FilePtr) (name : String)
  | Close (file : FilePtr)
deriving DecidableEq, Repr

/-- Whether the call stores a cell value. -/
def Call.storesValue : Call → Bool
  | Call.SetCellValue _ _ _ _ => true
  | Call.SetCellFloat _ _ _ _ _ _ => true
  | Call.SetCellInt _ _ _ _ => true
  | _ => false

/-- The write side of the excelize library: what a call answers after the
calls in the history. It panics or returns; a return carries the style id
(meaningful for `NewStyle` only) and the error. -/
abbrev Excelize := List Call → Call → Result (Int × Option String)

/-- Performs the call `c` after the history `log`: the library answers and the
call joins the history. -/
def invoke (X : Excelize) (c : Call) (log : List Call) :
    Result (Int × Option GoError) × List Call :=
  (match X log c with
    | Result.ret (n, e) => Result.ret (n, e.map GoError.collab)
    | Result.fault m => Result.fault m,
   log ++ [c])

/-- The error of a call whose other result is not used. -/
def errorOf (r : Result (Int × Option GoError)) : Result (Option GoError) :=
  match r with
  | Result.ret (_, e) => Result.ret e
  | Result.fault m => Result.fault m

/-- The panic of reading a field through a nil `*SpreadsheetFile`. -/
def nilDereference : String := "invalid memory address or nil pointer dereference"

namespace SpreadsheetFile

/-- Method `Save`. -/
def Save (X : Excelize) (spFilePtr : Option SpreadsheetFile) (log : List Call) :
    Result (Option GoError) × List Call :=
  match spFilePtr with
  | none => (Result.ret (some (GoError.New "pointer to spreadsheet file is nil")), log)
  | some sp =>
    match invoke X (Call.SaveAs sp.filePtr sp.filename) log with
    | (r, log1) => (errorOf r, log1)

/-- Method `Close`. -/
def Close (X : Excelize) (spFilePtr : Option SpreadsheetFile) (log : List Call) :
    Result (Option GoError) × List Call :=
  match spFilePtr with
  | none => (Result.ret (some (GoError.New "pointer to spreadsheet file is nil")), log)
  | some sp =>
    match invoke X (Call.Close sp.filePtr) log with
    | (r, log1) => (errorOf r, log1)

/-- Method `SetNumFmt`. The range check comes before the receiver is read. -/
def SetNumFmt (X : Excelize) (spFilePtr : Option SpreadsheetFile) (cell : String)
    (index : FormatIndex) (log : List Call) : Result (Option GoError) × List Call :=
  if index < 0 ∨ index > 49 then
    (Result.ret (some (GoError.New ("Invalid value for format index: " ++ Itoa index))), log)
  else
    match spFilePtr with
    | none => (Result.fault nilDereference, log)
    | some sp =>
      match invoke X (Call.NewStyle sp.filePtr index) log with
      | (Result.fault m, log1) => (Result.fault m, log1)
      | (Result.ret (_, some err), log1) => (Result.ret (some err), log1)
      | (Result.ret (st, none), log1) =>
        match invoke X (Call.SetCellStyle sp.filePtr sp.sheetname cell cell st) log1 with
        | (r, log2) => (errorOf r, log2)

/-- Method `SetCell`. -/
def SetCell (X : Excelize) (spFilePtr : Option SpreadsheetFile) (cell value : String)
    (log : List Call) : Result (Option GoError) × List Call :=
  match spFilePtr with
  | none => (Result.fault nilDereference, log)
  | some sp =>
    if cell = "" then (Result.ret (some (GoError.New "cell name must not be empty")), log)
    else
      match invoke X (Call.SetCellValue sp.filePtr sp.sheetname cell value) log with
      | (r, log1) => (errorOf r, log1)

/-- Method `SetCellFloat`. -/
def SetCellFloat (X : Excelize) (spFilePtr : Option SpreadsheetFile) (cell : String)
    (value : Float64) (log : List Call) : Result (Option GoError) × List Call :=
  match spFilePtr with
  | none => (Result.fault nilDereference, log)
  | some sp =>
    if cell = "" then (Result.ret (some (GoError.New "cell name must not be empty")), log)
    else
      match invoke X (Call.SetCellFloat sp.filePtr sp.sheetname cell value 0 64) log with
      | (r, log1) => (errorOf r, log1)

/-- Method `SetCellInt`: the value first, then the integer format. -/
def SetCellInt (X : Excelize) (spFilePtr : Option SpreadsheetFile) (cell : String)
    (value : Int) (log : List Call) : Result (Option GoError) × List Call :=
  match spFilePtr with
  | none => (Result.fault nilDereference, log)
  | some sp =>
    if cell = "" then (Result.ret (some (GoError.New "cell name must not be empty")), log)
    else
      match invoke X (Call.SetCellInt sp.filePtr sp.sheetname cell value) log with
      | (Result.fault m, log1) => (Result.fault m, log1)
      | (Result.ret (_, some err), log1) => (Result.ret (some err), log1)
      | (Result.ret (_, none), log1) => SetNumFmt X spFilePtr cell FormatInt log1

/-- Method `SetCellDecimal`: the format first, then the value as a string. -/
def SetCellDecimal {δ : Type} (X : Excelize) (D : DecimalLib δ)
    (spFilePtr : Option SpreadsheetFile) (cell : String) (amount : δ)
    (index : FormatIndex) (log : List Call) : Result (Option GoError) × List Call :=
  match spFilePtr with
  | none => (Result.fault nilDereference, log)
  | some sp =>
    if cell = "" then (Result.ret (some (GoError.New "cell name must not be empty")), log)
    else
      let value := D.String amount
      match SetNumFmt X spFilePtr cell index log with
      | (Result.fault m, log1) => (Result.fault m, log1)
      | (Result.ret (some err), log1) => (Result.ret (some err), log1)
      | (Result.ret none, log1) =>
        match invoke X (Call.SetCellValue sp.filePtr sp.sheetname cell value) log1 with
        | (r, log2) => (errorOf r, log2)

/-- Method `SetCellDate`: the date format first, then the value as a string. -/
def SetCellDate {τ : Type} (X : Excelize) (T : DateLib τ)
    (spFilePtr : Option SpreadsheetFile) (cell : String) (date : τ)
    (log : List Call) : Result (Option GoError) × List Call :=
  match spFilePtr with
  | none => (Result.fault nilDereference, log)
  | some sp =>
    if cell = "" then (Result.ret (some (GoError.New "cell name must not be empty")), log)
    else
      let value := T.String date
      match SetNumFmt X spFilePtr cell FormatDate log with
      | (Result.fault m, log1) => (Result.fault m, log1)
      | (Result.ret (some err), log1) => (Result.ret (some err), log1)
      | (Result.ret none, log1) =>
        match invoke X (Call.SetCellValue sp.filePtr sp.sheetname cell value) log1 with
        | (r, log2) => (errorOf r, log2)

end SpreadsheetFile

/-- The receiver of a call. -/
def Call.receiver : Call → FilePtr
  | Call.SetCellValue f _ _ _ => f
  | Call.SetCellFloat f _ _ _ _ _ => f
  | Call.SetCellInt f _ _ _ => f
  | Call.NewStyle f _ => f
  | Call.SetCellStyle f _ _ _ _ => f
  | Call.SaveAs f _ => f
  | Call.Close f => f

/-- Whether the call registers a style. -/
def Call.registersStyle : Call → Bool
  | Call.NewStyle _ _ => true
  | _ => false

/-- A stand-in excelize for the examples: a method called on the nil handle
panics, `NewStyle` hands out the style ids 1, 2, ... and every call succeeds. -/
def plainExcelize : Excelize := fun log c =>
  match c.receiver with
  | none => Result.fault nilDereference
  | some _ =>
    if c.registersStyle then
      Result.ret (((log.filter Call.registersStyle).length : Int) + 1, none)
    else Result.ret (0, none)

/-- A stand-in excelize whose style table is full: `NewStyle` returns an error,
every other call succeeds. -/
def fullExcelize : Excelize := fun _ c =>
  if c.registersStyle then Result.ret (0, some "the cell styles exceeds the limit")
  else Result.ret (0, none)

/-- A writer on sheet "Hello" of the file object 0. -/
def sampleWriter : SpreadsheetFile :=
  { filename := "test.xlsx", sheetname := "Hello", filePtr := some 0 }

/-- The zero value of `SpreadsheetFile`: no name, no sheet, no file handle. -/
def zeroWriter : SpreadsheetFile :=
  { filename := "", sheetname := "", filePtr := none }

/-- The number a list of decimal digits stands for, most significant first. -/
def digitsValue (l : List Char) : Nat :=
  l.foldl (fun acc c => 10 * acc + (c.toNat - 48)) 0

/-- A character that `Itoa` can produce: a decimal digit or the minus sign. -/
def isNumeral (c : Char) : Bool := c.isDigit || c == '-'

/-- The reference behaviour of `CellDecimal`, following the specification:
an error of `Cell` is passed on with a zero amount and the parser is not
consulted; otherwise the commas are removed from the text, an empty remainder
reads as zero, and anything else is what the decimal parser makes of it. -/
def CellDecimalRef {δ : Type} (D : DecimalLib δ) (spreadsheet : Spreadsheet)
    (row : Int) (heading : String) : Result ((δ × Option GoError) × List String) :=
  match spreadsheet.Cell row heading with
  | Result.fault m => Result.fault m
  | Result.ret (_, some e) => Result.ret ((D.Zero, some e), [])
  | Result.ret (text, none) =>
    let t := String.mk (text.data.filter fun c => c ≠ ',')
    if t = "" then Result.ret ((D.Zero, none), [])
    else
      Result.ret (((D.NewFromString t).1, (D.NewFromString t).2.map GoError.collab), [t])

/-- A workbook whose sheets open without error and hold no row at all. -/
def emptyWorkbook : ExcelizeReader :=
  { OpenFile := fun _ => (some 0, none),
    GetRows := fun _ _ => ([], none),
    Close := fun _ => none }

/-- A stand-in decimal library for the examples: an amount is kept as its
text, and a text is accepted when it is made of digits, a sign and a point. -/
def textDecimal : DecimalLib String :=
  { Zero := "0",
    NewFromString := fun t =>
      if t.data.all (fun c => c.isDigit || c = '.' || c = '-' || c = '+') then (t, none)
      else ("0", some ("can't convert " ++ t ++ " to decimal")),
    String := fun d => d }

/-- The rows of a one-sheet workbook used in the examples: a header with a
repeated and an empty heading, a full row and a truncated row. -/
def sampleSheet : Spreadsheet :=
  { headings := ["Date", "Payee", "", "Amount", "Payee", "Plain"],
    rows := [["Date", "Payee", "", "Amount", "Payee", "Plain"],
             ["2024-01-05", "  Acme \t", "x", " 1,234.56", "Other", "1234.56"],
             ["2024-01-06", "Bolt", "y", ",", "Other", "12a"],
             ["2024-01-07", "Cog"]] }

/-! ## Reader: column resolution -/

theorem columnLoop_eq (heading : String) (l : List String) (k : Nat) :
    Spreadsheet.columnLoop heading l k =
      if heading ∈ l then (k + List.indexOf heading l, none)
      else (k + l.length,
        some (GoError.New ("heading not found in headings: " ++ heading))) := by
  induction l generalizing k with
  | nil => simp [Spreadsheet.columnLoop]
  | cons a rest ih =>
    by_cases ha : a = heading
    · subst ha
      simp [Spreadsheet.columnLoop]
    · have hne : ¬ heading = a := fun h => ha h.symm
      simp only [Spreadsheet.columnLoop, ha, if_false, ih, List.mem_cons, hne, false_or,
        List.length_cons]
      rw [List.indexOf_cons_ne _ ha]
      by_cases hm : heading ∈ rest
      · simp only [hm, if_true]
        congr 1
        omega
      · simp only [hm, if_false]
        congr 1
        omega

theorem index_eq_get? {α : Type} (xs : List α) (i : Int) (h0 : 0 ≤ i) (x : α)
    (hx : xs.get? i.toNat = some x) : index xs i = Result.ret x := by
  have : ¬ i < 0 := by omega
  simp only [index, this, if_false, hx]

theorem get?_indexOf_of_mem (a : String) (l : List String) (h : a ∈ l) :
    l.get? (List.indexOf a l) = some a := by
  induction l with
  | nil => simp at h
  | cons b rest ih =>
    by_cases hb : b = a
    · subst hb
      simp
    · have hm : a ∈ rest := by
        rcases List.mem_cons.mp h with h1 | h1
        · exact absurd h1.symm hb
        · exact h1
      rw [List.indexOf_cons_ne _ hb]
      simpa using ih hm

theorem get?_ne_of_lt_indexOf (a : String) (l : List String) (j : Nat)
    (hj : j < List.indexOf a l) : l.get? j ≠ some a := by
  induction l generalizing j with
  | nil => simp
  | cons b rest ih =>
    by_cases hb : b = a
    · subst hb
      simp at hj
    · rw [List.indexOf_cons_ne _ hb] at hj
      cases j with
      | zero => simpa using hb
      | succ k =>
        have := ih k (by omega)
        simpa using this

theorem column_eq (s : Spreadsheet) (name : String) :
    s.column name =
      if name = "" then (0, some (GoError.New "heading must not be empty"))
      else if name ∈ s.headings then (List.indexOf name s.headings, none)
      else (s.headings.length,
        some (GoError.New ("heading not found in headings: " ++ name))) := by
  unfold Spreadsheet.column
  by_cases h : name = ""
  · simp [h]
  · simp only [h, if_false, columnLoop_eq, Nat.zero_add]

/-- C2. `column` on an empty name fails with the empty-heading error (whatever
the header holds); on a non-empty name that is no header cell it fails with the
heading-not-found error carrying the name; on a non-empty name of the header it
returns, without error, the smallest index at which the header equals the name. -/
theorem column_spec (s : Spreadsheet) (name : String) :
    (s.column name =
      if name = "" then (0, some (GoError.New "heading must not be empty"))
      else if name ∈ s.headings then (List.indexOf name s.headings, none)
      else (s.headings.length,
        some (GoError.New ("heading not found in headings: " ++ name))))
    ∧ (∀ i, s.column name = (i, none) →
        name ≠ "" ∧ s.headings.get? i = some name ∧
          ∀ j, j < i → s.headings.get? j ≠ some name) := by
  refine ⟨column_eq s name, ?_⟩
  intro i hi
  rw [column_eq] at hi
  by_cases h : name = ""
  · simp [h] at hi
  · by_cases hm : name ∈ s.headings
    · simp only [h, hm, if_false, if_true, Prod.mk.injEq, and_true] at hi
      subst hi
      exact ⟨h, get?_indexOf_of_mem name s.headings hm,
        fun j hj => get?_ne_of_lt_indexOf name s.headings j hj⟩
    · simp [h, hm] at hi

/-- C2 at concrete headers: the empty name is rejected although the header has
an empty cell, an absent name is reported, a repeated name resolves to its
first position. -/
theorem column_spec_witness :
    sampleSheet.column "" = (0, some (GoError.New "heading must not be empty"))
    ∧ sampleSheet.column "Memo"
        = (6, some (GoError.New "heading not found in headings: Memo"))
    ∧ sampleSheet.column "Payee" = (1, none)
    ∧ ("Payee" ≠ "" ∧ sampleSheet.headings.get? 1 = some "Payee" ∧
        ∀ j, j < 1 → sampleSheet.headings.get? j ≠ some "Payee") :=
  ⟨by decide, by decide, by decide,
    (column_spec sampleSheet "Payee").2 1 (by decide)⟩

/-! ## Reader: `Cell` -/

theorem Cell_of_column_error (s : Spreadsheet) (row : Int) (heading : String) (c : Nat)
    (e : GoError) (hc : s.column heading = (c, some e)) :
    s.Cell row heading = Result.ret ("", some e) := by
  simp only [Spreadsheet.Cell, hc]

theorem Cell_of_invalid_row (s : Spreadsheet) (row : Int) (heading : String) (c : Nat)
    (hc : s.column heading = (c, none)) (hrow : row < 1 ∨ row ≥ s.Size) :
    s.Cell row heading =
      Result.ret ("", some (GoError.New ("invalid row for spreadsheet: " ++ Itoa row))) := by
  simp only [Spreadsheet.Cell, hc, hrow, if_true]

theorem Cell_of_valid (s : Spreadsheet) (row : Int) (heading : String) (c : Nat)
    (hc : s.column heading = (c, none)) (h1 : 1 ≤ row) (h2 : row < s.Size) :
    ∃ r, s.rows.get? row.toNat = some r ∧
      s.Cell row heading =
        Result.ret ((match r.get? c with
          | some raw => TrimSpace raw
          | none => ""), none) := by
  have hlen : row.toNat < s.rows.length := by
    unfold Spreadsheet.Size at h2
    omega
  obtain ⟨r, hr⟩ : ∃ r, s.rows.get? row.toNat = some r :=
    ⟨s.rows.get ⟨row.toNat, hlen⟩, List.get?_eq_get hlen⟩
  refine ⟨r, hr, ?_⟩
  have hrow : ¬ (row < 1 ∨ row ≥ s.Size) := by omega
  have hidx : index s.rows row = Result.ret r := index_eq_get? s.rows row (by omega) r hr
  simp only [Spreadsheet.Cell, hc, hrow, if_false, hidx]
  by_cases hge : (c : Int) ≥ (r.length : Int)
  · have hnone : r.get? c = none := List.get?_eq_none.mpr (by omega)
    simp only [hge, if_true, hnone]
  · have hlt : c < r.length := by omega
    have hsome : r.get? c = some (r.get ⟨c, hlt⟩) := List.get?_eq_get hlt
    have hidx2 : index r (c : Int) = Result.ret (r.get ⟨c, hlt⟩) :=
      index_eq_get? r c (by omega) _ (by simp)
    simp only [hge, if_false, hidx2, hsome]

/-- C1. For a row `r` with `1 <= r < Size()` and a non-empty heading `h` of the
header, `Cell(r, h)` returns without error; with `c` the first index of `h` in
the header, the text is the trimmed `rows[r][c]` when the row has a cell `c`,
and the empty text when the row is shorter. Header and rows are arbitrary. -/
theorem Cell_valid (s : Spreadsheet) (r : Int) (h : String)
    (hr1 : 1 ≤ r) (hr2 : r < s.Size) (hne : h ≠ "") (hmem : h ∈ s.headings) :
    ∃ rowr, s.rows.get? r.toNat = some rowr ∧
      s.Cell r h =
        Result.ret ((match rowr.get? (List.indexOf h s.headings) with
          | some raw => TrimSpace raw
          | none => ""), none) := by
  have hc : s.column h = (List.indexOf h s.headings, none) := by
    rw [column_eq]
    simp only [hne, hmem, if_false, if_true]
  exact Cell_of_valid s r h _ hc hr1 hr2

/-- C1 at the sample sheet: a padded cell is trimmed, and a heading beyond the
end of a truncated row reads as the empty text. -/
theorem Cell_valid_witness :
    (∃ rowr, sampleSheet.rows.get? (1 : Int).toNat = some rowr ∧
      sampleSheet.Cell 1 "Payee" =
        Result.ret ((match rowr.get? (List.indexOf "Payee" sampleSheet.headings) with
          | some raw => TrimSpace raw
          | none => ""), none))
    ∧ sampleSheet.Cell 1 "Payee" = Result.ret ("Acme", none)
    ∧ sampleSheet.Cell 3 "Amount" = Result.ret ("", none) :=
  ⟨Cell_valid sampleSheet 1 "Payee" (by decide) (by decide) (by decide) (by decide),
    by decide, by decide⟩

/-- C4. `Cell` always returns, and it fails exactly when `column` fails or the
row is outside `1 <= row < Size()`. A failure of `column` is reported as is,
also when the row is invalid too; otherwise the failure is the invalid-row
error carrying the row number. The text of a failure is empty, and row 0 is
rejected for every heading. -/
theorem Cell_failure (s : Spreadsheet) (row : Int) (heading : String) :
    (∃ text err, s.Cell row heading = Result.ret (text, err)
      ∧ (err ≠ none ↔ ((s.column heading).2 ≠ none ∨ row < 1 ∨ row ≥ s.Size))
      ∧ (err ≠ none → text = "")
      ∧ ((s.column heading).2 ≠ none → err = (s.column heading).2)
      ∧ ((s.column heading).2 = none → (row < 1 ∨ row ≥ s.Size) →
          err = some (GoError.New ("invalid row for spreadsheet: " ++ Itoa row))))
    ∧ (∃ e, s.Cell 0 heading = Result.ret ("", some e)) := by
  constructor
  · rcases hcol : s.column heading with ⟨c, _ | e⟩
    · by_cases hrow : row < 1 ∨ row ≥ s.Size
      · refine ⟨"", _, Cell_of_invalid_row s row heading c hcol hrow, ?_, ?_, ?_, ?_⟩
        · simp [hrow]
        · intro _; rfl
        · intro h; simp at h
        · intro _ _; rfl
      · obtain ⟨r, _, hcell⟩ := Cell_of_valid s row heading c hcol (by omega) (by omega)
        refine ⟨_, none, hcell, ?_, ?_, ?_, ?_⟩
        · simp [hrow]
        · intro h; simp at h
        · intro h; simp at h
        · intro _ h; exact absurd h hrow
    · refine ⟨"", some e, Cell_of_column_error s row heading c e hcol, ?_, ?_, ?_, ?_⟩
      · simp
      · intro _; rfl
      · intro _; rfl
      · intro h; simp at h
  · rcases hcol : s.column heading with ⟨c, _ | e⟩
    · exact ⟨_, Cell_of_invalid_row s 0 heading c hcol (Or.inl (by decide))⟩
    · exact ⟨e, Cell_of_column_error s 0 heading c e hcol⟩

/-- C4 at the sample sheet: an unknown heading wins over an invalid row, and
rows 0, -1 and `Size()` are rejected with the row number in the message. -/
theorem Cell_failure_witness :
    sampleSheet.Cell 7 "Memo"
      = Result.ret ("", some (GoError.New "heading not found in headings: Memo"))
    ∧ sampleSheet.Cell 0 "Payee"
      = Result.ret ("", some (GoError.New "invalid row for spreadsheet: 0"))
    ∧ sampleSheet.Cell (-1) "Payee"
      = Result.ret ("", some (GoError.New "invalid row for spreadsheet: -1"))
    ∧ sampleSheet.Cell 4 "Payee"
      = Result.ret ("", some (GoError.New "invalid row for spreadsheet: 4"))
    ∧ (∃ e, sampleSheet.Cell 0 "" = Result.ret ("", some e)) :=
  ⟨by decide, by decide, by decide, by decide, (Cell_failure sampleSheet 0 "").2⟩

/-! ## Reader: `ProcessData` on a sheet without rows -/

/-- C3 (the code at the failing input). When the workbook opens and the sheet
yields zero rows without an error, `ProcessData` sets the empty-data error and
goes on to read `rows[0]`: it panics instead of returning. -/
theorem ProcessData_zero_rows (X : ExcelizeReader) (fileName tab : String)
    (h : readData X fileName tab = ([], none)) :
    ProcessData X fileName tab = Result.fault "index out of range" := by
  simp only [ProcessData, h]
  rfl

/-- C3 at a workbook whose sheet is empty. -/
theorem ProcessData_zero_rows_witness :
    readData emptyWorkbook "donations.xlsx" "Worksheet" = ([], none)
    ∧ ProcessData emptyWorkbook "donations.xlsx" "Worksheet"
        = Result.fault "index out of range" :=
  ⟨rfl, ProcessData_zero_rows emptyWorkbook "donations.xlsx" "Worksheet" rfl⟩

/-! ## Reader: `CellDecimal` -/

theorem ReplaceAll_comma (s : String) :
    ReplaceAll s ',' "" = String.mk (s.data.filter fun c => c ≠ ',') := by
  unfold ReplaceAll
  congr 1
  induction s.data with
  | nil => rfl
  | cons a rest ih =>
    by_cases ha : a = ','
    · simp [List.flatMap_cons, ha, ih]
    · simp [List.flatMap_cons, ha, ih]

theorem Cell_returns (s : Spreadsheet) (row : Int) (heading : String) :
    ∃ text err, s.Cell row heading = Result.ret (text, err) := by
  rcases hcol : s.column heading with ⟨c, _ | e⟩
  · by_cases hrow : row < 1 ∨ row ≥ s.Size
    · exact ⟨_, _, Cell_of_invalid_row s row heading c hcol hrow⟩
    · obtain ⟨r, _, hcell⟩ := Cell_of_valid s row heading c hcol (by omega) (by omega)
      exact ⟨_, _, hcell⟩
  · exact ⟨_, _, Cell_of_column_error s row heading c e hcol⟩

theorem CellDecimal_eq_ref {δ : Type} (D : DecimalLib δ) (s : Spreadsheet) (row : Int)
    (heading : String) : s.CellDecimal D row heading = CellDecimalRef D s row heading := by
  obtain ⟨text, err, hcell⟩ := Cell_returns s row heading
  cases err with
  | some e => simp only [Spreadsheet.CellDecimal, CellDecimalRef, hcell]
  | none =>
    simp only [Spreadsheet.CellDecimal, CellDecimalRef, hcell, ReplaceAll_comma]

/-- C5. `CellDecimal` equals the reference: a failure of `Cell` is returned as
is with a zero amount and no call of the decimal parser; otherwise the commas
are removed from the text of `Cell`, an empty remainder gives zero without
error (and without a call of the parser), and any other remainder gives the
parser's result for it. It always returns. Hence two cells whose texts are
equal once the commas are removed give the same result. -/
theorem CellDecimal_spec {δ : Type} (D : DecimalLib δ) (s : Spreadsheet) (row : Int)
    (heading : String) :
    s.CellDecimal D row heading = CellDecimalRef D s row heading
    ∧ (∃ r, s.CellDecimal D row heading = Result.ret r)
    ∧ (∀ (s2 : Spreadsheet) (row2 : Int) (heading2 t1 t2 : String),
        s.Cell row heading = Result.ret (t1, none) →
        s2.Cell row2 heading2 = Result.ret (t2, none) →
        (t1.data.filter fun c => c ≠ ',') = (t2.data.filter fun c => c ≠ ',') →
        s.CellDecimal D row heading = s2.CellDecimal D row2 heading2) := by
  refine ⟨CellDecimal_eq_ref D s row heading, ?_, ?_⟩
  · rw [CellDecimal_eq_ref]
    obtain ⟨text, err, hcell⟩ := Cell_returns s row heading
    cases err with
    | some e =>
      simp only [CellDecimalRef, hcell]
      exact ⟨_, rfl⟩
    | none =>
      simp only [CellDecimalRef, hcell]
      split
      · exact ⟨_, rfl⟩
      · exact ⟨_, rfl⟩
  · intro s2 row2 heading2 t1 t2 h1 h2 heq
    rw [CellDecimal_eq_ref, CellDecimal_eq_ref]
    simp only [CellDecimalRef, h1, h2, heq]

/-- C5 at the sample sheet: " 1,234.56" and "1234.56" read as the same amount,
a commas-only cell and a truncated row read as zero, a failure of `Cell` comes
back unchanged, and an unparsable text yields the parser's error. -/
theorem CellDecimal_spec_witness :
    sampleSheet.CellDecimal textDecimal 1 "Amount"
      = sampleSheet.CellDecimal textDecimal 1 "Plain"
    ∧ sampleSheet.CellDecimal textDecimal 1 "Amount"
      = Result.ret (("1234.56", none), ["1234.56"])
    ∧ sampleSheet.CellDecimal textDecimal 2 "Amount" = Result.ret (("0", none), [])
    ∧ sampleSheet.CellDecimal textDecimal 3 "Amount" = Result.ret (("0", none), [])
    ∧ sampleSheet.CellDecimal textDecimal 0 "Amount"
      = Result.ret (("0", some (GoError.New "invalid row for spreadsheet: 0")), [])
    ∧ sampleSheet.CellDecimal textDecimal 2 "Plain"
      = Result.ret (("0", some (GoError.collab "can't convert 12a to decimal")), ["12a"]) :=
  ⟨(CellDecimal_spec textDecimal sampleSheet 1 "Amount").2.2 sampleSheet 1 "Plain"
      "1,234.56" "1234.56" (by decide) (by decide) (by decide),
    by decide, by decide, by decide, by decide, by decide⟩

/-! ## Writer: number formats -/

theorem SetNumFmt_in_range (X : Excelize) (sp : SpreadsheetFile) (cell : String)
    (index : Int) (log : List Call) (h : 0 ≤ index ∧ index ≤ 49) :
    SpreadsheetFile.SetNumFmt X (some sp) cell index log =
      match X log (Call.NewStyle sp.filePtr index) with
      | Result.fault m => (Result.fault m, log ++ [Call.NewStyle sp.filePtr index])
      | Result.ret (_, some e) =>
        (Result.ret (some (GoError.collab e)), log ++ [Call.NewStyle sp.filePtr index])
      | Result.ret (st, none) =>
        (match X (log ++ [Call.NewStyle sp.filePtr index])
            (Call.SetCellStyle sp.filePtr sp.sheetname cell cell st) with
          | Result.fault m => Result.fault m
          | Result.ret (_, e) => Result.ret (e.map GoError.collab),
         log ++ [Call.NewStyle sp.filePtr index,
           Call.SetCellStyle sp.filePtr sp.sheetname cell cell st]) := by
  have hr : ¬ (index < 0 ∨ index > 49) := by omega
  simp only [SpreadsheetFile.SetNumFmt, hr, if_false, invoke, FormatIndex]
  rcases hX : X log (Call.NewStyle sp.filePtr index) with ⟨st, _ | e⟩ | m
  · simp only [Option.map_none', errorOf, List.append_assoc, List.singleton_append]
    rcases X (log ++ [Call.NewStyle sp.filePtr index])
      (Call.SetCellStyle sp.filePtr sp.sheetname cell cell st) with ⟨n, e2⟩ | m2 <;> rfl
  · rfl
  · rfl

/-- C6. With `index < 0` or `index > 49`, `SetNumFmt` returns the
invalid-format-index error carrying the index and the history of the file
handle is unchanged: no style is registered or applied (any receiver, nil
included). With `0 <= index <= 49` it never returns an error made by
`errors.New`; it calls `NewStyle` with `NumFmt = index`, and once that has
returned a style without error it calls `SetCellStyle` on the one cell with
that style; the result is the library's. -/
theorem SetNumFmt_spec (X : Excelize) (w : Option SpreadsheetFile) (sp : SpreadsheetFile)
    (cell : String) (index : Int) (log : List Call) :
    ((index < 0 ∨ index > 49) →
      SpreadsheetFile.SetNumFmt X w cell index log =
        (Result.ret (some (GoError.New ("Invalid value for format index: " ++ Itoa index))),
          log))
    ∧ ((0 ≤ index ∧ index ≤ 49) →
      (∀ text, (SpreadsheetFile.SetNumFmt X (some sp) cell index log).1
          ≠ Result.ret (some (GoError.New text)))
      ∧ SpreadsheetFile.SetNumFmt X (some sp) cell index log =
          match X log (Call.NewStyle sp.filePtr index) with
          | Result.fault m => (Result.fault m, log ++ [Call.NewStyle sp.filePtr index])
          | Result.ret (_, some e) =>
            (Result.ret (some (GoError.collab e)), log ++ [Call.NewStyle sp.filePtr index])
          | Result.ret (st, none) =>
            (match X (log ++ [Call.NewStyle sp.filePtr index])
                (Call.SetCellStyle sp.filePtr sp.sheetname cell cell st) with
              | Result.fault m => Result.fault m
              | Result.ret (_, e) => Result.ret (e.map GoError.collab),
             log ++ [Call.NewStyle sp.filePtr index,
               Call.SetCellStyle sp.filePtr sp.sheetname cell cell st])) := by
  constructor
  · intro h
    simp only [SpreadsheetFile.SetNumFmt, h, if_true, FormatIndex]
  · intro h
    refine ⟨?_, SetNumFmt_in_range X sp cell index log h⟩
    intro text
    rw [SetNumFmt_in_range X sp cell index log h]
    rcases X log (Call.NewStyle sp.filePtr index) with ⟨st, _ | e⟩ | m
    · dsimp only
      rcases hX2 : X (log ++ [Call.NewStyle sp.filePtr index])
        (Call.SetCellStyle sp.filePtr sp.sheetname cell cell st) with ⟨n, _ | e2⟩ | m2 <;>
        simp
    · simp
    · simp

/-- C6 at concrete indices: 50 and -1 are rejected with nothing recorded on
the handle; Money (2) registers a style and applies it to the cell. -/
theorem SetNumFmt_spec_witness :
    SpreadsheetFile.SetNumFmt plainExcelize (some sampleWriter) "B2" 50 []
      = (Result.ret (some (GoError.New "Invalid value for format index: 50")), [])
    ∧ SpreadsheetFile.SetNumFmt plainExcelize (some sampleWriter) "B2" (-1) []
      = (Result.ret (some (GoError.New "Invalid value for format index: -1")), [])
    ∧ SpreadsheetFile.SetNumFmt plainExcelize (some sampleWriter) "B2" FormatMoney []
      = (Result.ret none,
          [Call.NewStyle (some 0) 2, Call.SetCellStyle (some 0) "Hello" "B2" "B2" 1])
    ∧ (∀ text, (SpreadsheetFile.SetNumFmt plainExcelize (some sampleWriter) "B2" 2 []).1
          ≠ Result.ret (some (GoError.New text))) :=
  ⟨(SetNumFmt_spec plainExcelize (some sampleWriter) sampleWriter "B2" 50 []).1
      (by decide),
    by decide, by decide,
    ((SetNumFmt_spec plainExcelize (some sampleWriter) sampleWriter "B2" 2 []).2
      (by decide)).1⟩

theorem SetNumFmt_log (X : Excelize) (w : Option SpreadsheetFile) (cell : String)
    (index : Int) (log : List Call) :
    ∃ suffix, (SpreadsheetFile.SetNumFmt X w cell index log).2 = log ++ suffix ∧
      ∀ c ∈ suffix, c.storesValue = false := by
  by_cases hr : index < 0 ∨ index > 49
  · refine ⟨[], ?_, by simp⟩
    simp only [SpreadsheetFile.SetNumFmt, hr, if_true, FormatIndex, List.append_nil]
  · cases w with
    | none =>
      refine ⟨[], ?_, by simp⟩
      simp only [SpreadsheetFile.SetNumFmt, hr, if_false, FormatIndex, List.append_nil]
    | some sp =>
      rw [SetNumFmt_in_range X sp cell index log (by omega)]
      rcases X log (Call.NewStyle sp.filePtr index) with ⟨st, _ | e⟩ | m
      · exact ⟨[Call.NewStyle sp.filePtr index,
          Call.SetCellStyle sp.filePtr sp.sheetname cell cell st], rfl,
          by simp [Call.storesValue]⟩
      · exact ⟨[Call.NewStyle sp.filePtr index], rfl, by simp [Call.storesValue]⟩
      · exact ⟨[Call.NewStyle sp.filePtr index], rfl, by simp [Call.storesValue]⟩

/-! ## Writer: cell setters -/

/-- C7. For a non-empty cell reference `SetCellDecimal` applies the format and
only then writes. The calls made by `SetNumFmt` store no value. When
`SetNumFmt` does not return nil (index outside [0,49], or an error of the style
registration or of the style application), `SetCellDecimal` ends there with the
result and the history of `SetNumFmt` alone: `SetCellValue` is not called. When
`SetNumFmt` returns nil, the next and last call is `SetCellValue` with the text
`amount.String()`, and its result is returned. -/
theorem SetCellDecimal_spec {δ : Type} (X : Excelize) (D : DecimalLib δ)
    (sp : SpreadsheetFile) (cell : String) (amount : δ) (index : Int) (log : List Call)
    (hcell : cell ≠ "") :
    (∃ suffix, (SpreadsheetFile.SetNumFmt X (some sp) cell index log).2 = log ++ suffix ∧
      ∀ c ∈ suffix, c.storesValue = false)
    ∧ ((index < 0 ∨ index > 49) →
        SpreadsheetFile.SetCellDecimal X D (some sp) cell amount index log =
          (Result.ret (some (GoError.New ("Invalid value for format index: " ++ Itoa index))),
            log))
    ∧ ((SpreadsheetFile.SetNumFmt X (some sp) cell index log).1 ≠ Result.ret none →
        SpreadsheetFile.SetCellDecimal X D (some sp) cell amount index log =
          SpreadsheetFile.SetNumFmt X (some sp) cell index log)
    ∧ ((SpreadsheetFile.SetNumFmt X (some sp) cell index log).1 = Result.ret none →
        SpreadsheetFile.SetCellDecimal X D (some sp) cell amount index log =
          (match X (SpreadsheetFile.SetNumFmt X (some sp) cell index log).2
              (Call.SetCellValue sp.filePtr sp.sheetname cell (D.String amount)) with
            | Result.fault m => Result.fault m
            | Result.ret (_, e) => Result.ret (e.map GoError.collab),
           (SpreadsheetFile.SetNumFmt X (some sp) cell index log).2 ++
             [Call.SetCellValue sp.filePtr sp.sheetname cell (D.String amount)])) := by
  refine ⟨SetNumFmt_log X (some sp) cell index log, ?_, ?_, ?_⟩
  · intro h
    have hfmt := (SetNumFmt_spec X (some sp) sp cell index log).1 h
    simp only [SpreadsheetFile.SetCellDecimal, hcell, if_false, hfmt]
  · intro h
    rcases hfmt : SpreadsheetFile.SetNumFmt X (some sp) cell index log with ⟨r, log1⟩
    rw [hfmt] at h
    rcases r with (_ | e) | m
    · exact absurd rfl h
    · simp only [SpreadsheetFile.SetCellDecimal, hcell, if_false, hfmt]
    · simp only [SpreadsheetFile.SetCellDecimal, hcell, if_false, hfmt]
  · intro h
    rcases hfmt : SpreadsheetFile.SetNumFmt X (some sp) cell index log with ⟨r, log1⟩
    rw [hfmt] at h
    dsimp only at h
    subst h
    simp only [SpreadsheetFile.SetCellDecimal, hcell, if_false, hfmt, invoke]
    rcases X log1 (Call.SetCellValue sp.filePtr sp.sheetname cell (D.String amount))
      with ⟨n, e⟩ | m <;> rfl

/-- C7 at concrete inputs: an out-of-range index and a failed style
registration leave no `SetCellValue` in the history; with the Money format the
text "1234.56" is written after the two style calls. -/
theorem SetCellDecimal_spec_witness :
    "B2" ≠ ""
    ∧ SpreadsheetFile.SetCellDecimal plainExcelize textDecimal (some sampleWriter) "B2"
        "1234.56" 50 []
      = (Result.ret (some (GoError.New "Invalid value for format index: 50")), [])
    ∧ SpreadsheetFile.SetCellDecimal fullExcelize textDecimal (some sampleWriter) "B2"
        "1234.56" FormatMoney []
      = (Result.ret (some (GoError.collab "the cell styles exceeds the limit")),
          [Call.NewStyle (some 0) 2])
    ∧ SpreadsheetFile.SetCellDecimal plainExcelize textDecimal (some sampleWriter) "B2"
        "1234.56" FormatMoney []
      = (Result.ret none,
          [Call.NewStyle (some 0) 2, Call.SetCellStyle (some 0) "Hello" "B2" "B2" 1,
            Call.SetCellValue (some 0) "Hello" "B2" "1234.56"]) :=
  ⟨by decide,
    (SetCellDecimal_spec plainExcelize textDecimal sampleWriter "B2" "1234.56" 50 []
      (by decide)).2.1 (by decide),
    by decide, by decide⟩

/-- C9. With the empty cell reference each of `SetCell`, `SetCellInt`,
`SetCellFloat`, `SetCellDecimal` and `SetCellDate` returns the error "cell name
must not be empty" and leaves the history of the file handle as it was, for
every writer (a `SpreadsheetFile` behind a non-nil pointer) and every value;
for `SetCellDecimal` also when the format index is out of range. -/
theorem setters_empty_cell {δ τ : Type} (X : Excelize) (D : DecimalLib δ) (T : DateLib τ)
    (sp : SpreadsheetFile) (text : String) (n : Int) (x : Float64) (amount : δ)
    (index : Int) (date : τ) (log : List Call) :
    SpreadsheetFile.SetCell X (some sp) "" text log
      = (Result.ret (some (GoError.New "cell name must not be empty")), log)
    ∧ SpreadsheetFile.SetCellInt X (some sp) "" n log
      = (Result.ret (some (GoError.New "cell name must not be empty")), log)
    ∧ SpreadsheetFile.SetCellFloat X (some sp) "" x log
      = (Result.ret (some (GoError.New "cell name must not be empty")), log)
    ∧ SpreadsheetFile.SetCellDecimal X D (some sp) "" amount index log
      = (Result.ret (some (GoError.New "cell name must not be empty")), log)
    ∧ SpreadsheetFile.SetCellDate X T (some sp) "" date log
      = (Result.ret (some (GoError.New "cell name must not be empty")), log) :=
  ⟨rfl, rfl, rfl, rfl, rfl⟩

/-! ## Writer: `Save` and `Close` -/

/-- C8 (as amended). On an absent (nil) writer `Save` and `Close` return the
error "pointer to spreadsheet file is nil" and the history of the file handle
is unchanged. On any other writer they hand the stored file handle, nil
included, to `SaveAs` and to `Close` of the library and return its result. -/
theorem Save_Close_guard (X : Excelize) (sp : SpreadsheetFile) (log : List Call) :
    SpreadsheetFile.Save X none log
      = (Result.ret (some (GoError.New "pointer to spreadsheet file is nil")), log)
    ∧ SpreadsheetFile.Close X none log
      = (Result.ret (some (GoError.New "pointer to spreadsheet file is nil")), log)
    ∧ SpreadsheetFile.Save X (some sp) log
      = (match X log (Call.SaveAs sp.filePtr sp.filename) with
          | Result.fault m => Result.fault m
          | Result.ret (_, e) => Result.ret (e.map GoError.collab),
         log ++ [Call.SaveAs sp.filePtr sp.filename])
    ∧ SpreadsheetFile.Close X (some sp) log
      = (match X log (Call.Close sp.filePtr) with
          | Result.fault m => Result.fault m
          | Result.ret (_, e) => Result.ret (e.map GoError.collab),
         log ++ [Call.Close sp.filePtr]) := by
  refine ⟨rfl, rfl, ?_, ?_⟩
  · simp only [SpreadsheetFile.Save, invoke]
    rcases X log (Call.SaveAs sp.filePtr sp.filename) with ⟨n, e⟩ | m <;> rfl
  · simp only [SpreadsheetFile.Close, invoke]
    rcases X log (Call.Close sp.filePtr) with ⟨n, e⟩ | m <;> rfl

/-- C8 (as stated) fails on a zero-valued `SpreadsheetFile`: whatever the
library answers, `Save` and `Close` do reach it, with the nil handle as the
receiver; with a library that reads its receiver they panic. -/
theorem Save_Close_zero_value :
    (¬ ∃ X : Excelize, SpreadsheetFile.Save X (some zeroWriter) []
        = (Result.ret (some (GoError.New "pointer to spreadsheet file is nil")), []))
    ∧ (¬ ∃ X : Excelize, SpreadsheetFile.Close X (some zeroWriter) []
        = (Result.ret (some (GoError.New "pointer to spreadsheet file is nil")), []))
    ∧ SpreadsheetFile.Save plainExcelize (some zeroWriter) []
        = (Result.fault nilDereference, [Call.SaveAs none ""])
    ∧ SpreadsheetFile.Close plainExcelize (some zeroWriter) []
        = (Result.fault nilDereference, [Call.Close none]) := by
  refine ⟨?_, ?_, by decide, by decide⟩
  · rintro ⟨X, h⟩
    have h2 := congrArg Prod.snd h
    simp [SpreadsheetFile.Save, invoke] at h2
  · rintro ⟨X, h⟩
    have h2 := congrArg Prod.snd h
    simp [SpreadsheetFile.Close, invoke] at h2

/-! ## Cell references -/

theorem digitChar_toNat (d : Nat) (h : d < 10) : (digitChar d).toNat = 48 + d := by
  interval_cases d <;> rfl

theorem digitChar_isDigit (d : Nat) (h : d < 10) : (digitChar d).isDigit = true := by
  interval_cases d <;> rfl

theorem digitsValue_append (l : List Char) (c : Char) :
    digitsValue (l ++ [c]) = 10 * digitsValue l + (c.toNat - 48) := by
  simp [digitsValue, List.foldl_append]

theorem digitsValue_formatDecimal (fuel n : Nat) (h : n < fuel) :
    digitsValue (formatDecimal fuel n) = n := by
  induction fuel generalizing n with
  | zero => omega
  | succ fuel ih =>
    by_cases hn : n < 10
    · simp only [formatDecimal, hn, if_true]
      simp [digitsValue, digitChar_toNat n hn]
    · simp only [formatDecimal, hn, if_false]
      rw [digitsValue_append, ih (n / 10) (by omega),
        digitChar_toNat (n % 10) (Nat.mod_lt _ (by decide))]
      omega

theorem formatDecimal_isDigit (fuel n : Nat) :
    ∀ c ∈ formatDecimal fuel n, c.isDigit = true := by
  induction fuel generalizing n with
  | zero => simp [formatDecimal]
  | succ fuel ih =>
    by_cases hn : n < 10
    · simp only [formatDecimal, hn, if_true, List.mem_singleton]
      intro c hc
      rw [hc]
      exact digitChar_isDigit n hn
    · simp only [formatDecimal, hn, if_false, List.mem_append, List.mem_singleton]
      intro c hc
      rcases hc with hc | hc
      · exact ih (n / 10) c hc
      · rw [hc]
        exact digitChar_isDigit (n % 10) (Nat.mod_lt _ (by decide))

theorem formatDecimal_ne_minus (fuel n : Nat) (l : List Char) :
    formatDecimal (fuel + 1) n ≠ '-' :: l := by
  intro h
  have hd := formatDecimal_isDigit (fuel + 1) n '-' (by rw [h]; exact List.mem_cons_self _ _)
  exact absurd hd (by decide)

theorem Itoa_isNumeral (i : Int) : ∀ c ∈ (Itoa i).data, isNumeral c = true := by
  intro c hc
  cases i with
  | ofNat n =>
    have := formatDecimal_isDigit (n + 1) n c hc
    simp [isNumeral, this]
  | negSucc n =>
    simp only [Itoa, List.mem_cons] at hc
    rcases hc with hc | hc
    · rw [hc]
      decide
    · have := formatDecimal_isDigit (n + 2) (n + 1) c hc
      simp [isNumeral, this]

theorem Itoa_injective (a b : Int) (h : Itoa a = Itoa b) : a = b := by
  have hd := congrArg String.data h
  cases a with
  | ofNat n =>
    cases b with
    | ofNat m =>
      have hd2 : formatDecimal (n + 1) n = formatDecimal (m + 1) m := hd
      have hv := congrArg digitsValue hd2
      rw [digitsValue_formatDecimal _ _ (Nat.lt_succ_self n),
        digitsValue_formatDecimal _ _ (Nat.lt_succ_self m)] at hv
      rw [hv]
    | negSucc m =>
      have hd2 : formatDecimal (n + 1) n = '-' :: formatDecimal (m + 2) (m + 1) := hd
      exact absurd hd2 (formatDecimal_ne_minus n n _)
  | negSucc n =>
    cases b with
    | ofNat m =>
      have hd2 : '-' :: formatDecimal (n + 2) (n + 1) = formatDecimal (m + 1) m := hd
      exact absurd hd2.symm (formatDecimal_ne_minus m m _)
    | negSucc m =>
      have hd2 : '-' :: formatDecimal (n + 2) (n + 1) = '-' :: formatDecimal (m + 2) (m + 1) :=
        hd
      have hd3 := List.tail_eq_of_cons_eq hd2
      have hv := congrArg digitsValue hd3
      rw [digitsValue_formatDecimal _ _ (Nat.lt_succ_self (n + 1)),
        digitsValue_formatDecimal _ _ (Nat.lt_succ_self (m + 1))] at hv
      have : n = m := by omega
      rw [this]

theorem append_split_unique (l1 l2 s1 s2 : List Char)
    (h1 : ∀ c ∈ l1, isNumeral c = false) (h2 : ∀ c ∈ l2, isNumeral c = false)
    (hs1 : ∀ c ∈ s1, isNumeral c = true) (hs2 : ∀ c ∈ s2, isNumeral c = true)
    (h : l1 ++ s1 = l2 ++ s2) : l1 = l2 ∧ s1 = s2 := by
  induction l1 generalizing l2 with
  | nil =>
    cases l2 with
    | nil => exact ⟨rfl, by simpa using h⟩
    | cons b t2 =>
      exfalso
      have hb : b ∈ s1 := by
        have : s1 = b :: (t2 ++ s2) := by simpa using h
        rw [this]
        exact List.mem_cons_self _ _
      have := hs1 b hb
      rw [h2 b (List.mem_cons_self _ _)] at this
      exact Bool.noConfusion this
  | cons a t1 ih =>
    cases l2 with
    | nil =>
      exfalso
      have ha : a ∈ s2 := by
        have : a :: (t1 ++ s1) = s2 := by simpa using h
        rw [← this]
        exact List.mem_cons_self _ _
      have := hs2 a ha
      rw [h1 a (List.mem_cons_self _ _)] at this
      exact Bool.noConfusion this
    | cons b t2 =>
      simp only [List.cons_append, List.cons.injEq] at h
      obtain ⟨hab, ht⟩ := h
      obtain ⟨hl, hs⟩ := ih t2 (fun c hc => h1 c (List.mem_cons_of_mem _ hc))
        (fun c hc => h2 c (List.mem_cons_of_mem _ hc)) ht
      exact ⟨by rw [hab, hl], hs⟩

/-- C10. `CellName(column, row)` is `column` followed by the decimal rendering
of `row`, and on columns holding no decimal digit and no `-` it is injective:
equal cell references come from equal columns and equal rows. -/
theorem CellName_injective (c1 c2 : String) (r1 r2 : Int)
    (h1 : ∀ ch ∈ c1.data, ch.isDigit = false ∧ ch ≠ '-')
    (h2 : ∀ ch ∈ c2.data, ch.isDigit = false ∧ ch ≠ '-')
    (h : CellName c1 r1 = CellName c2 r2) :
    (CellName c1 r1 = c1 ++ Itoa r1) ∧ c1 = c2 ∧ r1 = r2 := by
  refine ⟨rfl, ?_⟩
  have hn : ∀ (c : String), (∀ ch ∈ c.data, ch.isDigit = false ∧ ch ≠ '-') →
      ∀ ch ∈ c.data, isNumeral ch = false := by
    intro c hc ch hch
    have := hc ch hch
    simp [isNumeral, this.1, this.2]
  have hd : c1.data ++ (Itoa r1).data = c2.data ++ (Itoa r2).data := by
    have := congrArg String.data h
    simpa [CellName, String.data_append] using this
  obtain ⟨hc, hr⟩ := append_split_unique c1.data c2.data (Itoa r1).data (Itoa r2).data
    (hn c1 h1) (hn c2 h2) (Itoa_isNumeral r1) (Itoa_isNumeral r2) hd
  exact ⟨String.ext hc, Itoa_injective r1 r2 (String.ext hr)⟩

/-- C10 at concrete references: "AB12" is produced by ("AB", 12), the
hypotheses hold for the column "AB", and a column with a digit in it does
clash: ("A1", 2) and ("A", 12) both give "A12". -/
theorem CellName_injective_witness :
    CellName "AB" 12 = "AB12"
    ∧ ((CellName "AB" 12 = "AB" ++ Itoa 12) ∧ "AB" = "AB" ∧ (12 : Int) = 12)
    ∧ CellName "A1" 2 = CellName "A" 12 :=
  ⟨by decide, CellName_injective "AB" "AB" 12 12 (by decide) (by decide) rfl, by decide⟩

end spreadsheet
